import Mathlib

set_option maxRecDepth 16000

namespace MyobInvoiceDownloader

/- Shallow embedding of src/app.py, a MYOB invoice-attachment batch
   downloader.  The Python datetime parsing and formatting used by the
   program, the query-string construction of MyobClient._send_request, the
   three client operations and the main driver routine are translated into
   executable Lean definitions.  Network responses and the filesystem are
   modelled explicitly: an Env record supplies the response each HTTP
   request would receive, and file writes are recorded as data.  Python
   exceptions are modelled by the PyErr type; a raised exception inside the
   driver loop is an .err step result carrying the state reached so far. -/

/-! ## Python datetime.strptime and strftime, for the two formats the
program uses: the date format with year, month, day separated by hyphens
(argument validation, app.py lines 123-124) and the full timestamp format
(invoice date, app.py line 163).  CPython strptime matches the year as
exactly four digits and month, day, hour, minute, second as one or two
digits, then the datetime constructor validates calendar ranges. -/

/-- Decimal digit character: ASCII 48 plus n mod 10. -/
def digitChar (n : Nat) : Char := Char.ofNat (48 + n % 10)

/-- Zero-padded two-digit rendering, as strftime directives m, d, H, M, S. -/
def pad2 (n : Nat) : String :=
  if n < 100 then String.mk [digitChar (n / 10), digitChar n] else Nat.repr n

/-- Digits of n in base ten prepended onto acc, most significant first;
the recursion is structured on a fuel argument, and fuel n + 1 always
suffices. -/
def natDigitsCore : Nat → Nat → List Char → List Char
  | 0, _, acc => acc
  | fuel + 1, n, acc =>
    if n < 10 then digitChar n :: acc
    else natDigitsCore fuel (n / 10) (digitChar n :: acc)

/-- Plain decimal rendering of a natural number, as glibc renders the
strftime directive Y: the decimal digits with no padding, so years below
1000 render with fewer than four digits. -/
def natRepr (n : Nat) : String := String.mk (natDigitsCore (n + 1) n [])

/-- Value of a decimal digit character, none for a non-digit. -/
def digitVal (c : Char) : Option Nat :=
  if c.isDigit then some (c.toNat - 48) else none

/-- Consume one or two leading digits (two when available), as the CPython
strptime patterns for month, day, hour, minute and second do in a position
followed by a non-digit separator or the end of the input. -/
def take2 : List Char → Option (Nat × List Char)
  | [] => none
  | [c] => (digitVal c).map (fun d => (d, []))
  | c1 :: c2 :: r =>
    match digitVal c1 with
    | none => none
    | some d1 =>
      match digitVal c2 with
      | some d2 => some (d1 * 10 + d2, r)
      | none => some (d1, c2 :: r)

/-- Consume exactly four leading digits, as the CPython strptime pattern
for the year directive does. -/
def take4 : List Char → Option (Nat × List Char)
  | c1 :: c2 :: c3 :: c4 :: r => do
    let d1 ← digitVal c1
    let d2 ← digitVal c2
    let d3 ← digitVal c3
    let d4 ← digitVal c4
    some (((d1 * 10 + d2) * 10 + d3) * 10 + d4, r)
  | _ => none

/-- Consume one expected literal character. -/
def expectChar (c : Char) : List Char → Option (List Char)
  | x :: r => if x = c then some r else none
  | [] => none

/-- A Python datetime value as produced by datetime.strptime. -/
structure PyDateTime where
  year : Nat
  month : Nat
  day : Nat
  hour : Nat
  minute : Nat
  second : Nat
  deriving DecidableEq

/-- Gregorian leap-year rule used by the Python datetime module. -/
def isLeapYear (y : Nat) : Bool :=
  (y % 4 == 0 && y % 100 != 0) || y % 400 == 0

/-- Number of days in a month, as validated by the datetime constructor. -/
def daysInMonth (y m : Nat) : Nat :=
  if m = 2 then (if isLeapYear y then 29 else 28)
  else if m = 4 || m = 6 || m = 9 || m = 11 then 30
  else 31

/-- Range validation performed by the datetime constructor: year between 1
and 9999, month 1-12, day within the month, hour 0-23, minute and second
0-59 (strptime field patterns admit seconds 60 and 61 but the datetime
constructor then rejects them). -/
def validDateTime (t : PyDateTime) : Bool :=
  decide (1 ≤ t.year) && decide (t.year ≤ 9999) &&
  decide (1 ≤ t.month) && decide (t.month ≤ 12) &&
  decide (1 ≤ t.day) && decide (t.day ≤ daysInMonth t.year t.month) &&
  decide (t.hour ≤ 23) && decide (t.minute ≤ 59) && decide (t.second ≤ 59)

/-- Field extraction for the timestamp format: four-digit year, hyphen,
month, hyphen, day, literal T, hour, colon, minute, colon, second, with
nothing left over (strptime raises on unconverted trailing data). -/
def strptimeFields (s : String) : Option PyDateTime := do
  let (y, r0) ← take4 s.data
  let r1 ← expectChar '-' r0
  let (mo, r2) ← take2 r1
  let r3 ← expectChar '-' r2
  let (d, r4) ← take2 r3
  let r5 ← expectChar 'T' r4
  let (h, r6) ← take2 r5
  let r7 ← expectChar ':' r6
  let (mi, r8) ← take2 r7
  let r9 ← expectChar ':' r8
  let (sec, r10) ← take2 r9
  if r10.isEmpty then some ⟨y, mo, d, h, mi, sec⟩ else none

/-- datetime.strptime with the full timestamp format, app.py line 163;
none models a raised ValueError. -/
def strptimeDateTime (s : String) : Option PyDateTime :=
  (strptimeFields s).bind (fun t => if validDateTime t then some t else none)

/-- Field extraction for the plain date format: four-digit year, hyphen,
month, hyphen, day, nothing left over; time components default to zero. -/
def strptimeDateFields (s : String) : Option PyDateTime := do
  let (y, r0) ← take4 s.data
  let r1 ← expectChar '-' r0
  let (mo, r2) ← take2 r1
  let r3 ← expectChar '-' r2
  let (d, r4) ← take2 r3
  if r4.isEmpty then some ⟨y, mo, d, 0, 0, 0⟩ else none

/-- datetime.strptime with the plain date format, app.py lines 123-124;
none models a raised ValueError. -/
def strptimeDate (s : String) : Option PyDateTime :=
  (strptimeDateFields s).bind (fun t => if validDateTime t then some t else none)

/-- strftime rendering of year, month and day as contiguous digits,
app.py line 163: the year unpadded (glibc does not zero-pad the Y
directive, so a year below 1000 yields fewer than four digits), month
and day zero-padded to two digits. -/
def strftimeYmd (t : PyDateTime) : String :=
  natRepr t.year ++ pad2 t.month ++ pad2 t.day

/-! ## Query-string construction of MyobClient._send_request,
app.py lines 27-45. -/

/-- Value stored in the params dictionary passed to _send_request: the
program passes strings (its filter and orderby expressions); the reserved
filters key, when present, holds a dictionary of field filters. -/
inductive ParamVal where
  | str (s : String)
  | dict (entries : List (String × String))
  deriving DecidableEq

/-- Rendering of a params value inside a key=value pair.  Every value the
program ever renders is a string; a dictionary under a key other than
filters never occurs in app.py (the filters entry is popped before plain
rendering), so its Python repr is not modelled. -/
def valStr : ParamVal → String
  | .str s => s
  | .dict _ => ""

/-- Serialized filters half of the query string, app.py lines 28-31: the
filters entry rendered as filters[key]=value pairs joined with ampersands,
empty when the filters key is absent. -/
def filterQS (params : List (String × ParamVal)) : String :=
  match List.lookup ("filters") params with
  | some (ParamVal.dict fs) =>
    String.intercalate ("&") (fs.map (fun kv => "filters[" ++ kv.1 ++ "]=" ++ kv.2))
  | _ => ""

/-- The params dictionary after the in-place params.pop removal of the
filters key, app.py line 33.  Python dictionaries hold at most one entry
per key, so removing the first matching entry models pop. -/
def paramsAfterSend (params : List (String × ParamVal)) : List (String × ParamVal) :=
  params.eraseP (fun kv => kv.1 == "filters")

/-- Serialized plain half of the query string, app.py line 34: key=value
pairs of the popped dictionary joined with ampersands. -/
def plainQS (params : List (String × ParamVal)) : String :=
  String.intercalate ("&") (params.map (fun kv => kv.1 ++ "=" ++ valStr kv.2))

/-- Leading strip of ampersand characters. -/
def stripAmpL (l : List Char) : List Char :=
  l.dropWhile (fun c => c == '&')

/-- Python str.strip with the ampersand character: removes every leading
and trailing ampersand. -/
def stripAmp (s : String) : String :=
  String.mk ((stripAmpL ((stripAmpL s.data).reverse)).reverse)

/-- The two halves joined with a bare ampersand, the intermediate string of
app.py line 36 before the strip call. -/
def joinedQuery (params : List (String × ParamVal)) : String :=
  filterQS params ++ "&" ++ plainQS (paramsAfterSend params)

/-- The final query string of app.py line 36: the bare-ampersand join of
the two halves followed by str.strip of ampersands. -/
def querystringOf (params : List (String × ParamVal)) : String :=
  stripAmp (joinedQuery params)

/-- URL actually requested, app.py lines 44-45: the query string is
appended after a question mark when non-empty. -/
def sendRequestUrl (url : String) (params : List (String × ParamVal)) : String :=
  if (querystringOf params).isEmpty then url else url ++ "?" ++ querystringOf params

/-- Whether a string starts or ends with an ampersand. -/
def hasStrayAmp (s : String) : Bool :=
  (s.data.head? == some '&') || (s.data.getLast? == some '&')

/-! ## Wire data, exceptions, log messages and network calls. -/

/-- Invoice record as read from the list-invoices response: the driver
reads the optional Number, Date and UID fields, app.py lines 144-146. -/
structure InvoiceJson where
  number : Option String
  date : Option String
  uid : Option String
  deriving DecidableEq

/-- Attachment record as read from the attachment-list response: the driver
reads the optional FileUri and OriginalFileName fields, lines 158-159. -/
structure AttachmentJson where
  fileUri : Option String
  originalFileName : Option String
  deriving DecidableEq

/-- Raw response to a direct file download, requests.get in app.py line
101: status code, body text and body bytes. -/
structure HttpResponse where
  status : Nat
  text : String
  content : String
  deriving DecidableEq

/-- Response to the list-invoices request with its parsed JSON body: the
optional Items field, app.py line 77. -/
structure ListResponse where
  status : Nat
  text : String
  items : Option (List InvoiceJson)
  deriving DecidableEq

/-- Response to the attachment-list request with its parsed JSON body: the
optional Attachments field, app.py line 94. -/
structure AttResponse where
  status : Nat
  text : String
  attachments : Option (List AttachmentJson)
  deriving DecidableEq

/-- Python exceptions raised by the program: the download failure raised in
download_attachment line 104 carrying the response body text, the
ValueError of strptime on an invoice date in line 163 carrying the
offending string, and the KeyError of the UID subscript in line 146. -/
inductive PyErr where
  | downloadFailed (text : String)
  | strptime (value : String)
  | keyError (key : String)
  deriving DecidableEq

/-- Log records emitted by the program, one constructor per logging call
site of app.py, carrying the interpolated data. -/
inductive LogMsg where
  | usingApiUrl (url : String)
  | searching (startDate endDate : String)
  | making (method url : String)
  | statusCode (code : Nat)
  | responseText (text : String)
  | requestSuccessful
  | failedGetInvoices
  | foundInvoices (count : Nat) (startDate endDate : String)
  | gettingAttachments (uid : String)
  | failedGetAttachments
  | processingInvoice (number date : String)
  | foundAttachments (count : Nat) (number : String)
  | noAttachments (number : String)
  | downloadingFrom (uri : String)
  | savedTo (path : String)
  | successfullyDownloaded (path : String)
  | failedDownloadFor (number : String) (e : PyErr)
  | noFileUri (number : String)
  | datesFormatError
  | topLevelError (e : PyErr)
  | downloadComplete (total downloaded : Nat)
  deriving DecidableEq

/-- Which log records the program emits at error level. -/
def LogMsg.isError : LogMsg → Bool
  | .responseText _ => true
  | .failedGetInvoices => true
  | .failedGetAttachments => true
  | .failedDownloadFor _ _ => true
  | .noFileUri _ => true
  | .datesFormatError => true
  | .topLevelError _ => true
  | _ => false

/-- Network requests the program performs, in order: the discovery call of
the client constructor, the two authenticated GETs, and the direct
unauthenticated download GET with the destination path it is saved to. -/
inductive NetCall where
  | discovery
  | listInvoices (url : String)
  | listAttachments (url : String)
  | download (fileUri savePath : String)
  deriving DecidableEq

/-- Log records of _send_request, app.py lines 47-55: the request line, the
status code, then the response text at error level on a non-200 status or
a success record otherwise. -/
def sendRequestLogs (method url : String) (status : Nat) (text : String) : List LogMsg :=
  [LogMsg.making method url, LogMsg.statusCode status] ++
  (if status ≠ 200 then [LogMsg.responseText text] else [LogMsg.requestSuccessful])

/-! ## The three client operations. -/

/-- Apostrophe character as a string, used in the OData filter literal. -/
def apos : String := String.mk [Char.ofNat 39]

/-- The server-side date filter expression of app.py line 65. -/
def invoiceFilterExpr (startDate endDate : String) : String :=
  "Date ge datetime" ++ apos ++ startDate ++ "T00:00:00" ++ apos ++
  " and Date le datetime" ++ apos ++ endDate ++ "T23:59:59" ++ apos

/-- Query parameters of the list-invoices request, app.py lines 64-67. -/
def invoiceParams (startDate endDate : String) : List (String × ParamVal) :=
  [("$filter", ParamVal.str (invoiceFilterExpr startDate endDate)),
   ("$orderby", ParamVal.str ("Date desc"))]

/-- MyobClient.get_invoices_between_dates, app.py lines 59-79, as a
function of the response the request receives: returns the invoice list
together with the log records and the network call made.  On a non-200
status it returns the empty list after logging an error; on 200 it returns
the list under the Items field, or the empty list when absent. -/
def get_invoices_between_dates (apiUrl startDate endDate : String) (resp : ListResponse) :
    List InvoiceJson × List LogMsg × NetCall :=
  let url := sendRequestUrl (apiUrl ++ "/Purchase/Bill") (invoiceParams startDate endDate)
  let logs := [LogMsg.searching startDate endDate] ++ sendRequestLogs ("GET") url resp.status resp.text
  if resp.status ≠ 200 then
    ([], logs ++ [LogMsg.failedGetInvoices], .listInvoices url)
  else
    (resp.items.getD [], logs ++ [LogMsg.foundInvoices (resp.items.getD []).length startDate endDate],
     .listInvoices url)

/-- MyobClient.get_invoice_attachments, app.py lines 81-94, as a function
of the response the request receives. -/
def get_invoice_attachments (apiUrl uid : String) (resp : AttResponse) :
    List AttachmentJson × List LogMsg × NetCall :=
  let url := sendRequestUrl (apiUrl ++ "/Purchase/Bill/Service/" ++ uid ++ "/Attachment") []
  let logs := [LogMsg.gettingAttachments uid] ++ sendRequestLogs ("GET") url resp.status resp.text
  if resp.status ≠ 200 then
    ([], logs ++ [LogMsg.failedGetAttachments], .listAttachments url)
  else
    (resp.attachments.getD [], logs, .listAttachments url)

/-- MyobClient.download_attachment, app.py lines 96-109, as a function of
the response the direct GET receives: its log records, and either the
raised exception carrying the response body text (non-200 status) or the
file write performed, as a destination-path and content pair. -/
def download_attachment (file_uri save_path : String) (resp : HttpResponse) :
    List LogMsg × Except PyErr (String × String) :=
  if resp.status ≠ 200 then
    ([LogMsg.downloadingFrom file_uri], .error (.downloadFailed resp.text))
  else
    ([LogMsg.downloadingFrom file_uri, LogMsg.savedTo save_path], .ok (save_path, resp.content))

/-- Local filesystem contents: file path to file content. -/
def FileSystem : Type := String → Option String

/-- Effect of the open-for-write and write of app.py lines 107-108: the
destination path now holds exactly the written content, truncating and
overwriting whatever was there; every other path is untouched. -/
def applyWrite (fs : FileSystem) (w : String × String) : FileSystem :=
  fun q => if q = w.1 then some w.2 else fs q

/-! ## The driver, app.py main, lines 111-180. -/

/-- Fixed output directory of app.py line 130. -/
def output_dir : String := "invoice_pdfs"

/-- Destination filename construction of app.py lines 163-164: strptime of
the invoice date with the timestamp format, strftime to eight digits, and
interpolation into the path under the output directory; none models the
ValueError propagating out of strptime. -/
def makeFileName (invoiceDate invoiceNumber originalFileName : String) : Option String :=
  (strptimeDateTime invoiceDate).map
    (fun t => output_dir ++ "/invoice_" ++ strftimeYmd t ++ "_" ++ invoiceNumber ++ "_" ++ originalFileName)

/-- Mutable state of the driver loop: the two counters of lines 140-141
and the recorded observable effects in order. -/
structure RunState where
  total : Nat
  downloaded : Nat
  netCalls : List NetCall
  writes : List (String × String)
  logs : List LogMsg
  deriving DecidableEq

/-- Driver state before any invoice is processed. -/
def initState : RunState := ⟨0, 0, [], [], []⟩

/-- Result of one step inside the try block of main: either the next state,
or a state together with the exception that escaped to the top-level
handler of lines 179-180. -/
inductive StepRes where
  | ok (st : RunState)
  | err (st : RunState) (e : PyErr)
  deriving DecidableEq

/-- State carried by a step result. -/
def resState : StepRes → RunState
  | .ok st => st
  | .err st _ => st

/-- Exception carried by a step result, if any. -/
def resErr : StepRes → Option PyErr
  | .ok _ => none
  | .err _ e => some e

/-- Remote environment: the discovered base URI and the response every
request would receive, keyed by invoice UID for attachment lists and by
file URI for downloads. -/
structure Env where
  apiUrl : String
  invoicesResp : ListResponse
  attachmentsResp : String → AttResponse
  downloadResp : String → HttpResponse

/-- Body of the per-attachment loop, app.py lines 157-173.  Reading the
FileUri with a missing value logs and skips.  The strptime call of line
163 sits outside the try block, so an unparseable invoice date escapes as
an exception.  The download call sits inside the try block: its failure is
caught, logged and skipped, and only a completed download increments the
downloaded counter. -/
def processAttachment (env : Env) (invoiceNumber invoiceDate : String)
    (st : RunState) (a : AttachmentJson) : StepRes :=
  let original := a.originalFileName.getD ("unknown.pdf")
  match a.fileUri with
  | none => .ok { st with logs := st.logs ++ [LogMsg.noFileUri invoiceNumber] }
  | some uri =>
    match makeFileName invoiceDate invoiceNumber original with
    | none => .err st (.strptime invoiceDate)
    | some fileName =>
      let dl := download_attachment uri fileName (env.downloadResp uri)
      let st1 := { st with netCalls := st.netCalls ++ [NetCall.download uri fileName],
                           logs := st.logs ++ dl.1 }
      match dl.2 with
      | .ok w =>
        .ok { st1 with writes := st1.writes ++ [w], downloaded := st1.downloaded + 1,
                       logs := st1.logs ++ [LogMsg.successfullyDownloaded fileName] }
      | .error e =>
        .ok { st1 with logs := st1.logs ++ [LogMsg.failedDownloadFor invoiceNumber e] }

/-- The per-attachment loop over one attachment list; an escaped exception
stops the loop. -/
def processAttachments (env : Env) (invoiceNumber invoiceDate : String)
    (st : RunState) : List AttachmentJson → StepRes
  | [] => .ok st
  | a :: rest =>
    match processAttachment env invoiceNumber invoiceDate st a with
    | .ok st1 => processAttachments env invoiceNumber invoiceDate st1 rest
    | .err st1 e => .err st1 e

/-- Body of the per-invoice loop, app.py lines 143-175.  The UID subscript
of line 146 raises KeyError on a missing field before anything is logged
for the invoice.  An empty attachment list only logs; a non-empty one
first adds its length to the total counter, then runs the attachment
loop. -/
def processInvoice (env : Env) (st : RunState) (inv : InvoiceJson) : StepRes :=
  let n := inv.number.getD ("unknown")
  let ds := inv.date.getD ("unknown")
  match inv.uid with
  | none => .err st (.keyError ("UID"))
  | some uid =>
    let ga := get_invoice_attachments env.apiUrl uid (env.attachmentsResp uid)
    let atts := ga.1
    let st1 := { st with logs := st.logs ++ [LogMsg.processingInvoice n ds] ++ ga.2.1,
                         netCalls := st.netCalls ++ [ga.2.2] }
    if atts.isEmpty then
      .ok { st1 with logs := st1.logs ++ [LogMsg.noAttachments n] }
    else
      processAttachments env n ds
        { st1 with total := st1.total + atts.length,
                   logs := st1.logs ++ [LogMsg.foundAttachments atts.length n] } atts

/-- The loop over the invoice list; an escaped exception stops the loop
and reaches the top-level handler. -/
def runLoop (env : Env) (st : RunState) : List InvoiceJson → StepRes
  | [] => .ok st
  | inv :: rest =>
    match processInvoice env st inv with
    | .ok st1 => runLoop env st1 rest
    | .err st1 e => .err st1 e

/-- Overall outcome of main: whether the output directory was created, the
final driver state, and the exception reaching the top-level handler, if
any (the handler logs it and main returns normally). -/
structure MainResult where
  dirCreated : Bool
  state : RunState
  aborted : Option PyErr
  deriving DecidableEq

/-- The invoice list a run works through: the result of the list-invoices
call against the environment. -/
def invoicesOf (env : Env) (startDate endDate : String) : List InvoiceJson :=
  (get_invoices_between_dates env.apiUrl startDate endDate env.invoicesResp).1

/-- Driver state at entry of the invoice loop on the valid-dates path:
the client constructor has made its discovery call and logged the base
URI, and the list-invoices call has been made and logged. -/
def mainStartState (env : Env) (startDate endDate : String) : RunState :=
  { total := 0, downloaded := 0,
    netCalls := [NetCall.discovery]
        ++ [(get_invoices_between_dates env.apiUrl startDate endDate env.invoicesResp).2.2],
    writes := [],
    logs := [LogMsg.usingApiUrl env.apiUrl]
        ++ (get_invoices_between_dates env.apiUrl startDate endDate env.invoicesResp).2.1 }

/-- main, app.py lines 111-180.  Date validation with strptime comes
first, lines 121-127: on failure an error is logged and main returns with
no directory created and no network call made.  Then the output directory
is created, the client constructed (one discovery call, one log record),
the invoices fetched, and the loop run inside the try block; its summary
line or the top-level error log closes the run. -/
def pyMain (startDate endDate : String) (env : Env) : MainResult :=
  if (strptimeDate startDate).isSome && (strptimeDate endDate).isSome then
    match runLoop env (mainStartState env startDate endDate)
        (get_invoices_between_dates env.apiUrl startDate endDate env.invoicesResp).1 with
    | .ok st =>
      { dirCreated := true,
        state := { st with logs := st.logs ++ [LogMsg.downloadComplete st.total st.downloaded] },
        aborted := none }
    | .err st e =>
      { dirCreated := true,
        state := { st with logs := st.logs ++ [LogMsg.topLevelError e] },
        aborted := some e }
  else
    { dirCreated := false,
      state := { total := 0, downloaded := 0, netCalls := [], writes := [],
                 logs := [LogMsg.datesFormatError] },
      aborted := none }

/-! ## Specification-side observers used by the claim statements. -/

/-- The download attempts among a sequence of network calls: the file URI
and destination path of each call to download_attachment, in order. -/
def downloadCalls (l : List NetCall) : List (String × String) :=
  l.filterMap (fun c => match c with | .download u p => some (u, p) | _ => none)

/-- Destination filename an attachment would be saved under, as built by
the driver; the placeholder empty string stands for the unreachable case
of an unparseable date (the driver raises there instead of attempting). -/
def fileNameOf (invoiceDate invoiceNumber : String) (a : AttachmentJson) : String :=
  (makeFileName invoiceDate invoiceNumber (a.originalFileName.getD ("unknown.pdf"))).getD ("")

/-- The download attempts a given attachment list calls for: one per
attachment with a present FileUri, in order. -/
def expAtts (invoiceDate invoiceNumber : String) (atts : List AttachmentJson) :
    List (String × String) :=
  atts.filterMap (fun a => a.fileUri.map (fun uri => (uri, fileNameOf invoiceDate invoiceNumber a)))

/-- The download attempts one invoice calls for. -/
def expInvoice (env : Env) (inv : InvoiceJson) : List (String × String) :=
  match inv.uid with
  | none => []
  | some uid =>
    expAtts (inv.date.getD ("unknown")) (inv.number.getD ("unknown"))
      (get_invoice_attachments env.apiUrl uid (env.attachmentsResp uid)).1

/-- The download attempts an invoice list calls for, in order. -/
def expectedAttempts (env : Env) : List InvoiceJson → List (String × String)
  | [] => []
  | inv :: rest => expInvoice env inv ++ expectedAttempts env rest

/-- The file writes produced by a sequence of download attempts: one write
of the full response payload per attempt whose fetch returns status 200. -/
def successWrites (env : Env) (l : List (String × String)) : List (String × String) :=
  l.filterMap (fun up =>
    if (env.downloadResp up.1).status = 200 then some (up.2, (env.downloadResp up.1).content)
    else none)

/-- The attachment list the driver would fetch for an invoice: empty when
the UID field is missing (the driver raises before fetching then). -/
def invoiceAttachments (env : Env) (inv : InvoiceJson) : List AttachmentJson :=
  match inv.uid with
  | none => []
  | some uid => (get_invoice_attachments env.apiUrl uid (env.attachmentsResp uid)).1

/-- An invoice the driver can process without raising: its UID field is
present, and when any of its attachments has a FileUri its date parses in
the timestamp format. -/
def goodInvoiceB (env : Env) (inv : InvoiceJson) : Bool :=
  inv.uid.isSome &&
  ((invoiceAttachments env inv).all (fun a => !a.fileUri.isSome) ||
   (strptimeDateTime (inv.date.getD ("unknown"))).isSome)

/-- An invoice list the driver can process to completion. -/
def goodInvoicesB (env : Env) (invs : List InvoiceJson) : Bool :=
  invs.all (goodInvoiceB env)

/-! ## Concrete fixtures used by witnesses and counterexamples. -/

/-- Params dictionary with one plain entry and no filters entry. -/
def c2params : List (String × ParamVal) := [("a", ParamVal.str ("b"))]

/-- Attachment with a present FileUri. -/
def attA : AttachmentJson := ⟨some ("uriA"), some ("a.pdf")⟩

/-- Second attachment with a present FileUri. -/
def attB : AttachmentJson := ⟨some ("uriB"), some ("b.pdf")⟩

/-- Attachment with no FileUri. -/
def attNone : AttachmentJson := ⟨none, some ("c.pdf")⟩

/-- Invoice whose date parses in the timestamp format. -/
def invGood : InvoiceJson := ⟨some ("INV-1"), some ("2024-03-05T00:00:00"), some ("uid1")⟩

/-- Invoice with a missing Date field, which the driver reads as the
default string unknown. -/
def invBadDate : InvoiceJson := ⟨some ("INV-2"), none, some ("uid2")⟩

/-- Environment in which every direct download fetch returns status 500
with body boom; uid1 has two attachments (one without FileUri), every
other UID has one attachment. -/
def envFail : Env :=
  { apiUrl := "http://base"
    invoicesResp := ⟨200, "", some [invGood, invBadDate]⟩
    attachmentsResp := fun uid =>
      if uid = "uid1" then ⟨200, "", some [attA, attNone]⟩ else ⟨200, "", some [attB]⟩
    downloadResp := fun _ => ⟨500, "boom", ""⟩ }

/-- Environment with no invoices and succeeding downloads. -/
def envTriv : Env :=
  { apiUrl := "http://base"
    invoicesResp := ⟨200, "", some []⟩
    attachmentsResp := fun _ => ⟨200, "", some []⟩
    downloadResp := fun _ => ⟨200, "", "PDFBYTES"⟩ }

/-! ## Helper lemmas. -/

theorem data_mk (l : List Char) : (String.mk l).data = l := rfl

theorem head_dropAmp (l : List Char) : (stripAmpL l).head? ≠ some '&' := by
  induction l with
  | nil => simp [stripAmpL, List.dropWhile]
  | cons c t ih =>
    by_cases h : c = '&'
    · simpa [stripAmpL, List.dropWhile_cons, h] using ih
    · simp [stripAmpL, List.dropWhile_cons, h]

theorem getLast_dropAmp (l : List Char) (h : stripAmpL l ≠ []) :
    (stripAmpL l).getLast? = l.getLast? := by
  induction l with
  | nil => simp [stripAmpL] at h
  | cons c t ih =>
    by_cases hc : c = '&'
    · have hstep : stripAmpL (c :: t) = stripAmpL t := by
        simp [stripAmpL, List.dropWhile_cons, hc]
      rw [hstep] at h ⊢
      rw [ih h]
      cases t with
      | nil => simp [stripAmpL] at h
      | cons x t2 => rw [List.getLast?_cons_cons]
    · simp [stripAmpL, List.dropWhile_cons, hc]

theorem hasStray_stripAmp (s : String) : hasStrayAmp (stripAmp s) = false := by
  unfold hasStrayAmp stripAmp
  rw [data_mk]
  have h1 : (stripAmpL ((stripAmpL s.data).reverse)).reverse.getLast? ≠ some '&' := by
    rw [List.getLast?_reverse]; exact head_dropAmp _
  have h2 : (stripAmpL ((stripAmpL s.data).reverse)).reverse.head? ≠ some '&' := by
    rw [List.head?_reverse]
    by_cases hE : stripAmpL ((stripAmpL s.data).reverse) = []
    · simp [hE]
    · rw [getLast_dropAmp _ hE, List.getLast?_reverse]
      exact head_dropAmp _
  simp only [Bool.or_eq_false_iff, beq_eq_false_iff_ne, ne_eq]
  exact ⟨h2, h1⟩

theorem strptimeDateTime_valid {s : String} {t : PyDateTime}
    (h : strptimeDateTime s = some t) : validDateTime t = true := by
  unfold strptimeDateTime at h
  cases hf : strptimeFields s with
  | none => rw [hf] at h; simp at h
  | some t0 =>
    rw [hf] at h
    replace h : (if validDateTime t0 then some t0 else none) = some t := h
    split_ifs at h with hv
    injection h with h2; exact h2 ▸ hv

theorem daysInMonth_le (y m : Nat) : daysInMonth y m ≤ 31 := by
  unfold daysInMonth
  split_ifs <;> omega

theorem validDateTime_bounds {t : PyDateTime} (h : validDateTime t = true) :
    1 ≤ t.year ∧ t.year ≤ 9999 ∧ 1 ≤ t.month ∧ t.month ≤ 12 ∧ 1 ≤ t.day ∧ t.day ≤ 31 := by
  unfold validDateTime at h
  simp only [Bool.and_eq_true, decide_eq_true_eq] at h
  obtain ⟨⟨⟨⟨⟨⟨⟨⟨h1, h2⟩, h3⟩, h4⟩, h5⟩, h6⟩, _⟩, _⟩, _⟩ := h
  exact ⟨h1, h2, h3, h4, h5, le_trans h6 (daysInMonth_le _ _)⟩

theorem digitChar_isDigit (n : Nat) : (digitChar n).isDigit = true := by
  unfold digitChar
  have h : n % 10 < 10 := Nat.mod_lt _ (by norm_num)
  revert h
  generalize n % 10 = k
  intro h
  interval_cases k <;> decide

theorem natDigitsCore_digits :
    ∀ (fuel n : Nat) (acc : List Char), (∀ c ∈ acc, c.isDigit = true) →
      ∀ c ∈ natDigitsCore fuel n acc, c.isDigit = true := by
  intro fuel
  induction fuel with
  | zero => intro n acc hacc c hc; exact hacc c hc
  | succ f ih =>
    intro n acc hacc c hc
    by_cases h : n < 10
    · rw [show natDigitsCore (f + 1) n acc = digitChar n :: acc
            from by simp [natDigitsCore, h]] at hc
      rcases List.mem_cons.mp hc with rfl | hmem
      · exact digitChar_isDigit n
      · exact hacc c hmem
    · rw [show natDigitsCore (f + 1) n acc = natDigitsCore f (n / 10) (digitChar n :: acc)
            from by simp [natDigitsCore, h]] at hc
      refine ih (n / 10) (digitChar n :: acc) ?_ c hc
      intro c2 hc2
      rcases List.mem_cons.mp hc2 with rfl | hmem
      · exact digitChar_isDigit n
      · exact hacc c2 hmem

theorem natRepr_digits (n : Nat) : ∀ c ∈ (natRepr n).data, c.isDigit = true := by
  intro c hc
  rw [natRepr, data_mk] at hc
  exact natDigitsCore_digits (n + 1) n [] (by intro c2 hc2; simp at hc2) c hc

theorem natDigitsCore_small (f n : Nat) (acc : List Char) (h : n < 10) :
    natDigitsCore (f + 1) n acc = digitChar n :: acc := by
  simp [natDigitsCore, h]

theorem natDigitsCore_step (f n : Nat) (acc : List Char) (h : ¬n < 10) :
    natDigitsCore (f + 1) n acc = natDigitsCore f (n / 10) (digitChar n :: acc) := by
  simp [natDigitsCore, h]

theorem natDigitsCore_len4 (n : Nat) (h1 : 1000 ≤ n) (h2 : n ≤ 9999) :
    ∀ (f : Nat) (acc : List Char), 4 ≤ f →
      (natDigitsCore f n acc).length = 4 + acc.length := by
  intro f acc hf
  obtain ⟨k, rfl⟩ : ∃ k, f = k + 4 := ⟨f - 4, by omega⟩
  rw [show k + 4 = (k + 3) + 1 from by omega,
    natDigitsCore_step _ _ _ (by omega),
    show k + 3 = (k + 2) + 1 from by omega,
    natDigitsCore_step _ _ _ (by omega),
    show k + 2 = (k + 1) + 1 from by omega,
    natDigitsCore_step _ _ _ (by omega),
    natDigitsCore_small _ _ _ (by omega)]
  simp only [List.length_cons]
  omega

theorem natRepr_len4 (n : Nat) (h1 : 1000 ≤ n) (h2 : n ≤ 9999) :
    (natRepr n).data.length = 4 := by
  rw [natRepr, data_mk]
  rw [natDigitsCore_len4 n h1 h2 (n + 1) [] (by omega)]
  rfl

theorem strftimeYmd_spec {t : PyDateTime} (hm : t.month < 100) (hd : t.day < 100) :
    (∀ c ∈ (strftimeYmd t).data, c.isDigit = true) ∧
    (1000 ≤ t.year → t.year ≤ 9999 → (strftimeYmd t).data.length = 8) := by
  unfold strftimeYmd pad2
  rw [if_pos hm, if_pos hd]
  constructor
  · intro c hc
    simp only [String.data_append, data_mk, List.mem_append, List.mem_cons,
      List.not_mem_nil, or_false] at hc
    rcases hc with (hy | rfl | rfl) | rfl | rfl
    · exact natRepr_digits _ c hy
    all_goals exact digitChar_isDigit _
  · intro hy1 hy2
    rw [String.data_append, String.data_append, List.length_append, List.length_append,
      natRepr_len4 t.year hy1 hy2]
    rfl

theorem lookup_cons_ne {β : Type} (k k0 : String) (v0 : β) (l : List (String × β))
    (h : k ≠ k0) : List.lookup k ((k0, v0) :: l) = List.lookup k l := by
  have hb : (k == k0) = false := beq_eq_false_iff_ne.mpr h
  simp [List.lookup, hb]

theorem lookup_cons_self {β : Type} (k : String) (v0 : β) (l : List (String × β)) :
    List.lookup k ((k, v0) :: l) = some v0 := by
  simp [List.lookup]

theorem lookup_eq_none_of_not_mem {β : Type} (k : String) (l : List (String × β))
    (h : k ∉ l.map Prod.fst) : List.lookup k l = none := by
  induction l with
  | nil => rfl
  | cons kv rest ih =>
    obtain ⟨k0, v0⟩ := kv
    simp only [List.map_cons, List.mem_cons, not_or] at h
    rw [lookup_cons_ne _ _ _ _ h.1]
    exact ih h.2

/-! ## Claim theorems. -/

/-- C1 counterexample to the claim as stated: the timestamp with year 5
parses (strptime takes exactly four year digits and the datetime
constructor accepts year 5), but strftime renders the year without
padding, so the date part of the constructed filename has five digits,
not eight. -/
theorem c1_counterexample :
    strptimeDateTime ("0005-03-05T00:00:00") = some ⟨5, 3, 5, 0, 0, 0⟩ ∧
    makeFileName ("0005-03-05T00:00:00") ("INV-42") ("receipt.pdf")
        = some ("invoice_pdfs/invoice_50305_INV-42_receipt.pdf") ∧
    ¬(strftimeYmd ⟨5, 3, 5, 0, 0, 0⟩).data.length = 8 := by
  exact ⟨by decide, by decide, by decide⟩

/-- C1 (amended): for every attachment whose invoice date parses in the
timestamp format, the destination filename the driver passes to the
download operation is the output directory, a slash, the fixed invoice
marker, the strftime year-month-day rendering of the parsed date — the
decimal digits of the year unpadded, then the month and the day
zero-padded to two digits, all digit characters, eight of them exactly
when the year is at least 1000 — an underscore, the invoice number, an
underscore, and the original attachment name. -/
theorem c1_download_filename :
    ∀ (invoiceDate invoiceNumber originalName : String) (t : PyDateTime),
      strptimeDateTime invoiceDate = some t →
      makeFileName invoiceDate invoiceNumber originalName
          = some (output_dir ++ "/invoice_" ++ strftimeYmd t ++ "_" ++ invoiceNumber
                  ++ "_" ++ originalName) ∧
      strftimeYmd t = natRepr t.year ++ pad2 t.month ++ pad2 t.day ∧
      (∀ c ∈ (strftimeYmd t).data, c.isDigit = true) ∧
      (1000 ≤ t.year → (strftimeYmd t).data.length = 8) := by
  intro ds n o t h
  have hv := strptimeDateTime_valid h
  obtain ⟨_, hy, _, hm, _, hd⟩ := validDateTime_bounds hv
  have hs := strftimeYmd_spec (t := t) (by omega) (by omega)
  exact ⟨by simp [makeFileName, h], rfl, hs.1, fun h1000 => hs.2 h1000 hy⟩

/-- C1 witness: the example of the specification, date 2024-03-05T00:00:00,
number INV-42, original name receipt.pdf, whose date part is eight
digits. -/
theorem c1_download_filename_witness :
    strptimeDateTime ("2024-03-05T00:00:00") = some ⟨2024, 3, 5, 0, 0, 0⟩ ∧
    makeFileName ("2024-03-05T00:00:00") ("INV-42") ("receipt.pdf")
        = some ("invoice_pdfs/invoice_20240305_INV-42_receipt.pdf") ∧
    (strftimeYmd ⟨2024, 3, 5, 0, 0, 0⟩).data.length = 8 := by
  refine ⟨by decide, ?_, ?_⟩
  · rw [(c1_download_filename ("2024-03-05T00:00:00") ("INV-42") ("receipt.pdf")
        ⟨2024, 3, 5, 0, 0, 0⟩ (by decide)).1]
    decide
  · exact (c1_download_filename ("2024-03-05T00:00:00") ("INV-42") ("receipt.pdf")
        ⟨2024, 3, 5, 0, 0, 0⟩ (by decide)).2.2.2 (by decide)

/-- C2 counterexample: with one plain parameter and no filters entry, the
filters half is empty and the plain half is not, yet the query string
appended to the URL has no leading or trailing ampersand, because line 36
strips ampersands from both ends after the bare join. -/
theorem c2_counterexample :
    filterQS c2params = "" ∧ plainQS (paramsAfterSend c2params) = "a=b" ∧
    sendRequestUrl ("https://example.com/r") c2params = "https://example.com/r?a=b" ∧
    hasStrayAmp (querystringOf c2params) = false := by
  refine ⟨by decide, by decide, by decide, by decide⟩

/-- C2 (amended): when exactly one of the two serialized halves is empty,
the intermediate bare-ampersand join of line 36 does carry a leading or
trailing stray ampersand, but the strip call on the same line removes it,
so the query string actually appended to the URL never starts or ends
with an ampersand. -/
theorem c2_stray_ampersand :
    ∀ params : List (String × ParamVal),
      (filterQS params = "" ∧ plainQS (paramsAfterSend params) ≠ "") ∨
      (filterQS params ≠ "" ∧ plainQS (paramsAfterSend params) = "") →
      hasStrayAmp (joinedQuery params) = true ∧
      hasStrayAmp (querystringOf params) = false := by
  intro params h
  refine ⟨?_, hasStray_stripAmp _⟩
  rcases h with ⟨hf, _⟩ | ⟨_, hp⟩
  · unfold joinedQuery hasStrayAmp
    rw [hf, String.data_append, String.data_append]
    simp
  · unfold joinedQuery hasStrayAmp
    rw [hp, String.data_append, String.data_append]
    simp [List.getLast?_concat]

/-- C2 witness for the amended statement, at the one-plain-parameter
dictionary: the pre-strip join is stray, the final query string is not. -/
theorem c2_stray_ampersand_witness :
    hasStrayAmp (joinedQuery c2params) = true ∧
    hasStrayAmp (querystringOf c2params) = false :=
  c2_stray_ampersand c2params (Or.inl ⟨by decide, by decide⟩)

/-- C4: whenever either date fails to parse in the plain date format, main
logs the dates error and returns at once: no directory is created, no
network call of any kind is made, no file is written, and nothing else is
logged. -/
theorem c4_bad_dates_abort :
    ∀ (startDate endDate : String) (env : Env),
      ((strptimeDate startDate).isSome && (strptimeDate endDate).isSome) = false →
      pyMain startDate endDate env
          = { dirCreated := false,
              state := { total := 0, downloaded := 0, netCalls := [], writes := [],
                         logs := [LogMsg.datesFormatError] },
              aborted := none } ∧
      LogMsg.isError LogMsg.datesFormatError = true := by
  intro s e env h
  refine ⟨?_, rfl⟩
  unfold pyMain
  rw [if_neg (by simp [h])]

/-- C4 witness: the specification example 2024-13-01, an invalid month. -/
theorem c4_bad_dates_abort_witness :
    pyMain ("2024-13-01") ("2024-02-01") envTriv
        = { dirCreated := false,
            state := { total := 0, downloaded := 0, netCalls := [], writes := [],
                       logs := [LogMsg.datesFormatError] },
            aborted := none } :=
  (c4_bad_dates_abort ("2024-13-01") ("2024-02-01") envTriv (by decide)).1

/-- C5: the list-invoices operation returns the empty list and logs an
error-level record on any non-200 status, and on status 200 returns
exactly the list under the Items field, or the empty list when absent;
the modelled operation is a total function, so it never raises. -/
theorem c5_get_invoices :
    ∀ (apiUrl startDate endDate : String) (resp : ListResponse),
      (resp.status ≠ 200 →
        (get_invoices_between_dates apiUrl startDate endDate resp).1 = [] ∧
        LogMsg.failedGetInvoices ∈ (get_invoices_between_dates apiUrl startDate endDate resp).2.1 ∧
        LogMsg.isError LogMsg.failedGetInvoices = true) ∧
      (resp.status = 200 →
        (get_invoices_between_dates apiUrl startDate endDate resp).1 = resp.items.getD []) := by
  intro apiUrl s e resp
  constructor
  · intro h
    refine ⟨?_, ?_, rfl⟩ <;> simp [get_invoices_between_dates, h]
  · intro h
    simp [get_invoices_between_dates, h]

/-- C5 witness: a status-500 response yields the empty list with the error
logged, and a status-200 response yields its Items list. -/
theorem c5_get_invoices_witness :
    (get_invoices_between_dates ("u") ("2024-01-01") ("2024-01-31")
        ⟨500, "boom", some [invGood]⟩).1 = [] ∧
    (get_invoices_between_dates ("u") ("2024-01-01") ("2024-01-31")
        ⟨200, "", some [invGood]⟩).1 = [invGood] :=
  ⟨((c5_get_invoices ("u") ("2024-01-01") ("2024-01-31") ⟨500, "boom", some [invGood]⟩).1
      (by decide)).1,
   (c5_get_invoices ("u") ("2024-01-01") ("2024-01-31") ⟨200, "", some [invGood]⟩).2 rfl⟩

/-- C6: the download operation raises exactly when the fetch status is not
200, and the raised error carries the response body text; on status 200 it
performs one write of the full response payload to the destination path,
and applying that write overwrites whatever was at the path while leaving
every other path unchanged. -/
theorem c6_download_attachment :
    ∀ (uri path : String) (resp : HttpResponse),
      ((∃ e, (download_attachment uri path resp).2 = .error e) ↔ resp.status ≠ 200) ∧
      (resp.status ≠ 200 →
        (download_attachment uri path resp).2 = .error (.downloadFailed resp.text)) ∧
      (resp.status = 200 →
        (download_attachment uri path resp).2 = .ok (path, resp.content) ∧
        ∀ fs : FileSystem,
          applyWrite fs (path, resp.content) path = some resp.content ∧
          ∀ q, q ≠ path → applyWrite fs (path, resp.content) q = fs q) := by
  intro uri path resp
  by_cases h : resp.status = 200
  · refine ⟨?_, ?_, ?_⟩
    · simp [download_attachment, h]
    · intro hc; exact absurd h hc
    · intro _
      refine ⟨by simp [download_attachment, h], ?_⟩
      intro fs
      refine ⟨by simp [applyWrite], ?_⟩
      intro q hq
      simp [applyWrite, hq]
  · refine ⟨?_, ?_, ?_⟩
    · simp [download_attachment, h]
    · intro _; simp [download_attachment, h]
    · intro hc; exact absurd hc h

/-- C6 witness: a status-404 fetch raises the error carrying the body
text; a status-200 fetch writes the payload, overwriting the prior
content of the destination path. -/
theorem c6_download_attachment_witness :
    (download_attachment ("u") ("p") ⟨404, "missing", ""⟩).2
        = .error (.downloadFailed ("missing")) ∧
    applyWrite (fun _ => some ("OLD")) (("p"), ("NEW")) ("p") = some ("NEW") :=
  ⟨(c6_download_attachment ("u") ("p") ⟨404, "missing", ""⟩).2.1 (by decide),
   (((c6_download_attachment ("u") ("p") ⟨200, "", "NEW"⟩).2.2 rfl).2
      (fun _ => some ("OLD"))).1⟩

/-- C10: the request primitive pops the filters entry out of the caller's
params dictionary: afterwards a filters lookup finds nothing, while the
lookup of every other key is unchanged.  The dictionary is modelled as a
key-value list with pairwise-distinct keys, as Python guarantees. -/
theorem c10_pop_filters :
    ∀ params : List (String × ParamVal),
      (params.map Prod.fst).Nodup →
      List.lookup ("filters") (paramsAfterSend params) = none ∧
      ∀ k, k ≠ "filters" →
        List.lookup k (paramsAfterSend params) = List.lookup k params := by
  intro params
  induction params with
  | nil => intro _; exact ⟨rfl, fun _ _ => rfl⟩
  | cons kv rest ih =>
    intro hnd
    obtain ⟨k0, v0⟩ := kv
    simp only [List.map_cons, List.nodup_cons, List.mem_map] at hnd
    obtain ⟨hk0, hndr⟩ := hnd
    by_cases hf : k0 = "filters"
    · have he : paramsAfterSend ((k0, v0) :: rest) = rest := by
        simp [paramsAfterSend, List.eraseP_cons, hf]
      rw [he]
      constructor
      · apply lookup_eq_none_of_not_mem
        intro hmem
        rw [List.mem_map] at hmem
        obtain ⟨x, hx, hx2⟩ := hmem
        exact hk0 ⟨x, hx, by rw [hx2, hf]⟩
      · intro k hk
        rw [lookup_cons_ne _ _ _ _ (by rw [hf]; exact hk)]
    · have he : paramsAfterSend ((k0, v0) :: rest) = (k0, v0) :: paramsAfterSend rest := by
        simp [paramsAfterSend, List.eraseP_cons, hf]
      rw [he]
      obtain ⟨ihn, ihk⟩ := ih hndr
      constructor
      · rw [lookup_cons_ne _ _ _ _ (fun hc => hf hc.symm)]
        exact ihn
      · intro k hk
        by_cases hkk : k = k0
        · subst hkk
          rw [lookup_cons_self, lookup_cons_self]
        · rw [lookup_cons_ne _ _ _ _ hkk, lookup_cons_ne _ _ _ _ hkk]
          exact ihk k hk

/-- C10 witness: a dictionary holding a filters entry and one other entry;
after the call the filters entry is gone and the other entry intact. -/
theorem c10_pop_filters_witness :
    List.lookup ("filters")
        (paramsAfterSend [("filters", ParamVal.dict [("k", "v")]), ("x", ParamVal.str ("y"))])
        = none ∧
    List.lookup ("x")
        (paramsAfterSend [("filters", ParamVal.dict [("k", "v")]), ("x", ParamVal.str ("y"))])
        = List.lookup ("x") [("filters", ParamVal.dict [("k", "v")]), ("x", ParamVal.str ("y"))] :=
  ⟨(c10_pop_filters [("filters", ParamVal.dict [("k", "v")]), ("x", ParamVal.str ("y"))]
      (by decide)).1,
   (c10_pop_filters [("filters", ParamVal.dict [("k", "v")]), ("x", ParamVal.str ("y"))]
      (by decide)).2 ("x") (by decide)⟩

/-! ## Driver-loop lemmas. -/

theorem downloadCalls_nil : downloadCalls [] = [] := rfl

theorem downloadCalls_append (x y : List NetCall) :
    downloadCalls (x ++ y) = downloadCalls x ++ downloadCalls y :=
  List.filterMap_append x y _

theorem downloadCalls_cons_download (u p : String) (l : List NetCall) :
    downloadCalls (NetCall.download u p :: l) = (u, p) :: downloadCalls l := rfl

theorem downloadCalls_cons_listAtt (u : String) (l : List NetCall) :
    downloadCalls (NetCall.listAttachments u :: l) = downloadCalls l := rfl

theorem downloadCalls_cons_listInv (u : String) (l : List NetCall) :
    downloadCalls (NetCall.listInvoices u :: l) = downloadCalls l := rfl

theorem downloadCalls_cons_discovery (l : List NetCall) :
    downloadCalls (NetCall.discovery :: l) = downloadCalls l := rfl

theorem expAtts_cons_none {a : AttachmentJson} (ds n : String) (l : List AttachmentJson)
    (ha : a.fileUri = none) : expAtts ds n (a :: l) = expAtts ds n l := by
  simp [expAtts, List.filterMap_cons, ha]

theorem expAtts_cons_some {a : AttachmentJson} {uri : String} (ds n : String)
    (l : List AttachmentJson) (ha : a.fileUri = some uri) :
    expAtts ds n (a :: l) = (uri, fileNameOf ds n a) :: expAtts ds n l := by
  simp [expAtts, List.filterMap_cons, ha]

theorem successWrites_cons_hit {env : Env} {u : String} (p : String) (l : List (String × String))
    (h : (env.downloadResp u).status = 200) :
    successWrites env ((u, p) :: l)
        = (p, (env.downloadResp u).content) :: successWrites env l := by
  simp [successWrites, List.filterMap_cons, h]

theorem successWrites_cons_miss {env : Env} {u : String} (p : String) (l : List (String × String))
    (h : ¬(env.downloadResp u).status = 200) :
    successWrites env ((u, p) :: l) = successWrites env l := by
  simp [successWrites, List.filterMap_cons, h]

theorem processAttachments_spec (env : Env) (n ds : String) :
    ∀ (atts : List AttachmentJson) (st : RunState),
      ∃ new : List (String × String),
        downloadCalls (resState (processAttachments env n ds st atts)).netCalls
            = downloadCalls st.netCalls ++ new ∧
        new <+: expAtts ds n atts ∧
        (resState (processAttachments env n ds st atts)).writes
            = st.writes ++ successWrites env new ∧
        (resState (processAttachments env n ds st atts)).downloaded
            = st.downloaded + (successWrites env new).length ∧
        (resState (processAttachments env n ds st atts)).total = st.total ∧
        (resErr (processAttachments env n ds st atts) = none → new = expAtts ds n atts) ∧
        ((atts.all (fun a => !a.fileUri.isSome) || (strptimeDateTime ds).isSome) = true →
          resErr (processAttachments env n ds st atts) = none) := by
  intro atts
  induction atts with
  | nil =>
    intro st
    refine ⟨[], by simp [processAttachments, resState], List.nil_prefix,
      by simp [processAttachments, resState, successWrites],
      by simp [processAttachments, resState, successWrites],
      by simp [processAttachments, resState],
      fun _ => rfl, fun _ => rfl⟩
  | cons a rest ih =>
    intro st
    cases ha : a.fileUri with
    | none =>
      have hstep : processAttachments env n ds st (a :: rest)
          = processAttachments env n ds
              { st with logs := st.logs ++ [LogMsg.noFileUri n] } rest := by
        simp [processAttachments, processAttachment, ha]
      obtain ⟨new, h1, h2, h3, h4, h5, h6, h7⟩ :=
        ih { st with logs := st.logs ++ [LogMsg.noFileUri n] }
      rw [hstep]
      refine ⟨new, h1, ?_, h3, h4, h5, ?_, ?_⟩
      · rw [expAtts_cons_none ds n rest ha]; exact h2
      · intro he; rw [expAtts_cons_none ds n rest ha]; exact h6 he
      · intro hcond
        apply h7
        simpa [List.all_cons, ha] using hcond
    | some uri =>
      cases hmf : makeFileName ds n (a.originalFileName.getD ("unknown.pdf")) with
      | none =>
        have hds : strptimeDateTime ds = none := by
          have hmf2 := hmf
          unfold makeFileName at hmf2
          exact Option.map_eq_none'.mp hmf2
        have hstep : processAttachments env n ds st (a :: rest)
            = .err st (.strptime ds) := by
          simp [processAttachments, processAttachment, ha, hmf]
        rw [hstep]
        refine ⟨[], by simp [resState], List.nil_prefix,
          by simp [resState, successWrites], by simp [resState, successWrites],
          by simp [resState], ?_, ?_⟩
        · intro he; simp [resErr] at he
        · intro hcond
          exfalso
          simp [List.all_cons, ha, hds] at hcond
      | some fileName =>
        have hds : (strptimeDateTime ds).isSome = true := by
          unfold makeFileName at hmf
          cases hq : strptimeDateTime ds with
          | none => rw [hq] at hmf; simp at hmf
          | some t => rfl
        have hfn : fileNameOf ds n a = fileName := by
          simp [fileNameOf, hmf]
        by_cases h200 : (env.downloadResp uri).status = 200
        · have hstep : processAttachments env n ds st (a :: rest)
              = processAttachments env n ds
                  { st with
                    downloaded := st.downloaded + 1,
                    netCalls := st.netCalls ++ [NetCall.download uri fileName],
                    writes := st.writes ++ [(fileName, (env.downloadResp uri).content)],
                    logs := st.logs ++ [LogMsg.downloadingFrom uri, LogMsg.savedTo fileName,
                            LogMsg.successfullyDownloaded fileName] } rest := by
            simp [processAttachments, processAttachment, ha, hmf, download_attachment, h200]
          obtain ⟨new, h1, h2, h3, h4, h5, h6, h7⟩ :=
            ih { st with
                 downloaded := st.downloaded + 1,
                 netCalls := st.netCalls ++ [NetCall.download uri fileName],
                 writes := st.writes ++ [(fileName, (env.downloadResp uri).content)],
                 logs := st.logs ++ [LogMsg.downloadingFrom uri, LogMsg.savedTo fileName,
                         LogMsg.successfullyDownloaded fileName] }
          rw [hstep]
          refine ⟨(uri, fileName) :: new, ?_, ?_, ?_, ?_, ?_, ?_, ?_⟩
          · rw [h1]
            simp [downloadCalls_append, downloadCalls_cons_download, downloadCalls_nil,
              List.append_assoc]
          · rw [expAtts_cons_some ds n rest ha, hfn]
            exact List.cons_prefix_cons.mpr ⟨rfl, h2⟩
          · rw [h3, successWrites_cons_hit fileName new h200]
            simp [List.append_assoc]
          · rw [h4, successWrites_cons_hit fileName new h200]
            simp only [List.length_cons]
            omega
          · exact h5
          · intro he
            rw [expAtts_cons_some ds n rest ha, hfn, h6 he]
          · intro _
            apply h7
            simp [hds]
        · have hstep : processAttachments env n ds st (a :: rest)
              = processAttachments env n ds
                  { st with
                    netCalls := st.netCalls ++ [NetCall.download uri fileName],
                    logs := st.logs ++ [LogMsg.downloadingFrom uri,
                      LogMsg.failedDownloadFor n (PyErr.downloadFailed (env.downloadResp uri).text)] }
                  rest := by
            simp [processAttachments, processAttachment, ha, hmf, download_attachment, h200]
          obtain ⟨new, h1, h2, h3, h4, h5, h6, h7⟩ :=
            ih { st with
                 netCalls := st.netCalls ++ [NetCall.download uri fileName],
                 logs := st.logs ++ [LogMsg.downloadingFrom uri,
                   LogMsg.failedDownloadFor n (PyErr.downloadFailed (env.downloadResp uri).text)] }
          rw [hstep]
          refine ⟨(uri, fileName) :: new, ?_, ?_, ?_, ?_, ?_, ?_, ?_⟩
          · rw [h1]
            simp [downloadCalls_append, downloadCalls_cons_download, downloadCalls_nil,
              List.append_assoc]
          · rw [expAtts_cons_some ds n rest ha, hfn]
            exact List.cons_prefix_cons.mpr ⟨rfl, h2⟩
          · rw [h3, successWrites_cons_miss fileName new h200]
          · rw [h4, successWrites_cons_miss fileName new h200]
          · exact h5
          · intro he
            rw [expAtts_cons_some ds n rest ha, hfn, h6 he]
          · intro _
            apply h7
            simp [hds]

theorem successWrites_append (env : Env) (a b : List (String × String)) :
    successWrites env (a ++ b) = successWrites env a ++ successWrites env b :=
  List.filterMap_append a b _

theorem expectedAttempts_cons (env : Env) (inv : InvoiceJson) (rest : List InvoiceJson) :
    expectedAttempts env (inv :: rest) = expInvoice env inv ++ expectedAttempts env rest := rfl

theorem get_invoice_attachments_call (apiUrl uid : String) (resp : AttResponse) :
    (get_invoice_attachments apiUrl uid resp).2.2
        = .listAttachments
            (sendRequestUrl (apiUrl ++ "/Purchase/Bill/Service/" ++ uid ++ "/Attachment") []) := by
  unfold get_invoice_attachments
  split_ifs <;> rfl

theorem invoiceAttachments_eq (env : Env) (inv : InvoiceJson) (uid : String)
    (hu : inv.uid = some uid) :
    invoiceAttachments env inv
        = (get_invoice_attachments env.apiUrl uid (env.attachmentsResp uid)).1 := by
  simp [invoiceAttachments, hu]

theorem expInvoice_eq (env : Env) (inv : InvoiceJson) (uid : String) (hu : inv.uid = some uid) :
    expInvoice env inv
        = expAtts (inv.date.getD ("unknown")) (inv.number.getD ("unknown"))
            (get_invoice_attachments env.apiUrl uid (env.attachmentsResp uid)).1 := by
  simp [expInvoice, hu]

theorem processInvoice_eq (env : Env) (st : RunState) (inv : InvoiceJson) (uid : String)
    (hu : inv.uid = some uid) :
    processInvoice env st inv =
      (if (get_invoice_attachments env.apiUrl uid (env.attachmentsResp uid)).1.isEmpty then
        .ok { st with
              netCalls := st.netCalls
                  ++ [(get_invoice_attachments env.apiUrl uid (env.attachmentsResp uid)).2.2],
              logs := st.logs
                  ++ [LogMsg.processingInvoice (inv.number.getD ("unknown"))
                        (inv.date.getD ("unknown"))]
                  ++ (get_invoice_attachments env.apiUrl uid (env.attachmentsResp uid)).2.1
                  ++ [LogMsg.noAttachments (inv.number.getD ("unknown"))] }
      else
        processAttachments env (inv.number.getD ("unknown")) (inv.date.getD ("unknown"))
          { st with
            total := st.total
                + (get_invoice_attachments env.apiUrl uid (env.attachmentsResp uid)).1.length,
            netCalls := st.netCalls
                ++ [(get_invoice_attachments env.apiUrl uid (env.attachmentsResp uid)).2.2],
            logs := st.logs
                ++ [LogMsg.processingInvoice (inv.number.getD ("unknown"))
                      (inv.date.getD ("unknown"))]
                ++ (get_invoice_attachments env.apiUrl uid (env.attachmentsResp uid)).2.1
                ++ [LogMsg.foundAttachments
                      (get_invoice_attachments env.apiUrl uid (env.attachmentsResp uid)).1.length
                      (inv.number.getD ("unknown"))] }
          (get_invoice_attachments env.apiUrl uid (env.attachmentsResp uid)).1) := by
  simp [processInvoice, hu]

theorem processInvoice_spec (env : Env) (st : RunState) (inv : InvoiceJson) :
    ∃ new : List (String × String),
      downloadCalls (resState (processInvoice env st inv)).netCalls
          = downloadCalls st.netCalls ++ new ∧
      new <+: expInvoice env inv ∧
      (resState (processInvoice env st inv)).writes = st.writes ++ successWrites env new ∧
      (resState (processInvoice env st inv)).downloaded
          = st.downloaded + (successWrites env new).length ∧
      (st.downloaded ≤ st.total →
        (resState (processInvoice env st inv)).downloaded
            ≤ (resState (processInvoice env st inv)).total) ∧
      (resErr (processInvoice env st inv) = none → new = expInvoice env inv) ∧
      (goodInvoiceB env inv = true → resErr (processInvoice env st inv) = none) := by
  cases hu : inv.uid with
  | none =>
    have hstep : processInvoice env st inv = .err st (.keyError ("UID")) := by
      simp [processInvoice, hu]
    rw [hstep]
    refine ⟨[], by simp [resState], List.nil_prefix, by simp [resState, successWrites],
      by simp [resState, successWrites], fun h => h, ?_, ?_⟩
    · intro he; simp [resErr] at he
    · intro hg; exfalso; simp [goodInvoiceB, hu] at hg
  | some uid =>
    rw [processInvoice_eq env st inv uid hu]
    by_cases hemp : (get_invoice_attachments env.apiUrl uid (env.attachmentsResp uid)).1.isEmpty
    · rw [if_pos hemp]
      have hnil : (get_invoice_attachments env.apiUrl uid (env.attachmentsResp uid)).1 = [] :=
        List.isEmpty_iff.mp hemp
      refine ⟨[], ?_, List.nil_prefix, by simp [resState, successWrites],
        by simp [resState, successWrites], fun h => h, fun _ => ?_, fun _ => rfl⟩
      · simp [resState, downloadCalls_append, get_invoice_attachments_call,
          downloadCalls_cons_listAtt, downloadCalls_nil]
      · rw [expInvoice_eq env inv uid hu, hnil]; rfl
    · rw [if_neg hemp]
      obtain ⟨new, h1, h2, h3, h4, h5, h6, h7⟩ :=
        processAttachments_spec env (inv.number.getD ("unknown")) (inv.date.getD ("unknown"))
          (get_invoice_attachments env.apiUrl uid (env.attachmentsResp uid)).1
          { st with
            total := st.total
                + (get_invoice_attachments env.apiUrl uid (env.attachmentsResp uid)).1.length,
            netCalls := st.netCalls
                ++ [(get_invoice_attachments env.apiUrl uid (env.attachmentsResp uid)).2.2],
            logs := st.logs
                ++ [LogMsg.processingInvoice (inv.number.getD ("unknown"))
                      (inv.date.getD ("unknown"))]
                ++ (get_invoice_attachments env.apiUrl uid (env.attachmentsResp uid)).2.1
                ++ [LogMsg.foundAttachments
                      (get_invoice_attachments env.apiUrl uid (env.attachmentsResp uid)).1.length
                      (inv.number.getD ("unknown"))] }
      refine ⟨new, ?_, ?_, ?_, ?_, ?_, ?_, ?_⟩
      · rw [h1]
        simp [downloadCalls_append, get_invoice_attachments_call, downloadCalls_cons_listAtt,
          downloadCalls_nil]
      · rw [expInvoice_eq env inv uid hu]; exact h2
      · rw [h3]
      · rw [h4]
      · intro hle
        rw [h4, h5]
        have l1 : (successWrites env new).length ≤ new.length := List.length_filterMap_le _ _
        have l2 : new.length
            ≤ (expAtts (inv.date.getD ("unknown")) (inv.number.getD ("unknown"))
                (get_invoice_attachments env.apiUrl uid (env.attachmentsResp uid)).1).length :=
          h2.length_le
        have l3 : (expAtts (inv.date.getD ("unknown")) (inv.number.getD ("unknown"))
                (get_invoice_attachments env.apiUrl uid (env.attachmentsResp uid)).1).length
            ≤ (get_invoice_attachments env.apiUrl uid (env.attachmentsResp uid)).1.length := by
          unfold expAtts; exact List.length_filterMap_le _ _
        show st.downloaded + (successWrites env new).length
            ≤ st.total + (get_invoice_attachments env.apiUrl uid (env.attachmentsResp uid)).1.length
        omega
      · intro he; rw [expInvoice_eq env inv uid hu]; exact h6 he
      · intro hg
        apply h7
        have hg2 := hg
        unfold goodInvoiceB at hg2
        rw [invoiceAttachments_eq env inv uid hu, Bool.and_eq_true] at hg2
        exact hg2.2

theorem runLoop_spec (env : Env) :
    ∀ (invs : List InvoiceJson) (st : RunState),
      ∃ new : List (String × String),
        downloadCalls (resState (runLoop env st invs)).netCalls
            = downloadCalls st.netCalls ++ new ∧
        new <+: expectedAttempts env invs ∧
        (resState (runLoop env st invs)).writes = st.writes ++ successWrites env new ∧
        (resState (runLoop env st invs)).downloaded
            = st.downloaded + (successWrites env new).length ∧
        (st.downloaded ≤ st.total →
          (resState (runLoop env st invs)).downloaded ≤ (resState (runLoop env st invs)).total) ∧
        (resErr (runLoop env st invs) = none → new = expectedAttempts env invs) ∧
        (goodInvoicesB env invs = true → resErr (runLoop env st invs) = none) := by
  intro invs
  induction invs with
  | nil =>
    intro st
    refine ⟨[], by simp [runLoop, resState], List.nil_prefix,
      by simp [runLoop, resState, successWrites], by simp [runLoop, resState, successWrites],
      fun h => h, fun _ => rfl, fun _ => rfl⟩
  | cons inv rest ih =>
    intro st
    obtain ⟨n1, g1, g2, g3, g4, g5, g6, g7⟩ := processInvoice_spec env st inv
    cases hP : processInvoice env st inv with
    | err st1 e =>
      simp only [hP, resState, resErr] at g1 g3 g4 g5 g6 g7
      have hstep : runLoop env st (inv :: rest) = .err st1 e := by
        simp [runLoop, hP]
      rw [hstep]
      refine ⟨n1, g1, ?_, g3, g4, g5, ?_, ?_⟩
      · exact g2.trans (List.prefix_append _ _)
      · intro he; simp [resErr] at he
      · intro hg
        exfalso
        have hg1 : goodInvoiceB env inv = true := by
          rw [show goodInvoicesB env (inv :: rest)
                = (goodInvoiceB env inv && goodInvoicesB env rest) from rfl,
              Bool.and_eq_true] at hg
          exact hg.1
        have := g7 hg1
        simp at this
    | ok st1 =>
      simp only [hP, resState, resErr] at g1 g3 g4 g5 g6 g7
      have hn1 : n1 = expInvoice env inv := g6 trivial
      obtain ⟨n2, k1, k2, k3, k4, k5, k6, k7⟩ := ih st1
      have hstep : runLoop env st (inv :: rest) = runLoop env st1 rest := by
        simp [runLoop, hP]
      rw [hstep]
      refine ⟨n1 ++ n2, ?_, ?_, ?_, ?_, ?_, ?_, ?_⟩
      · rw [k1, g1, List.append_assoc]
      · rw [hn1, expectedAttempts_cons]
        exact (List.prefix_append_right_inj _).mpr k2
      · rw [k3, g3, successWrites_append, List.append_assoc]
      · rw [k4, g4, successWrites_append]
        simp only [List.length_append]
        omega
      · intro h
        exact k5 (g5 h)
      · intro he
        rw [hn1, k6 he, expectedAttempts_cons]
      · intro hg
        apply k7
        rw [show goodInvoicesB env (inv :: rest)
              = (goodInvoiceB env inv && goodInvoicesB env rest) from rfl,
            Bool.and_eq_true] at hg
        exact hg.2

theorem runLoop_append (env : Env) :
    ∀ (A B : List InvoiceJson) (st : RunState),
      runLoop env st (A ++ B)
          = (match runLoop env st A with
             | .ok st1 => runLoop env st1 B
             | .err st1 er => .err st1 er) := by
  intro A
  induction A with
  | nil => intro B st; rfl
  | cons inv A2 ih =>
    intro B st
    cases hP : processInvoice env st inv with
    | ok st1 =>
      have l : runLoop env st (inv :: (A2 ++ B)) = runLoop env st1 (A2 ++ B) := by
        simp [runLoop, hP]
      have r : runLoop env st (inv :: A2) = runLoop env st1 A2 := by
        simp [runLoop, hP]
      rw [List.cons_append, l, r, ih]
    | err st1 er =>
      have l : runLoop env st (inv :: (A2 ++ B)) = .err st1 er := by
        simp [runLoop, hP]
      have r : runLoop env st (inv :: A2) = .err st1 er := by
        simp [runLoop, hP]
      rw [List.cons_append, l, r]

theorem processAttachments_err (env : Env) (n ds : String)
    (hds : strptimeDateTime ds = none) :
    ∀ (atts : List AttachmentJson) (st : RunState),
      atts.any (fun a => a.fileUri.isSome) = true →
      ∃ st2, processAttachments env n ds st atts = .err st2 (.strptime ds) ∧
        st2.netCalls = st.netCalls ∧ st2.writes = st.writes ∧
        st2.downloaded = st.downloaded ∧ st2.total = st.total := by
  intro atts
  induction atts with
  | nil => intro st hany; simp at hany
  | cons a rest ih =>
    intro st hany
    cases ha : a.fileUri with
    | some uri =>
      have hmf : makeFileName ds n (a.originalFileName.getD ("unknown.pdf")) = none := by
        simp [makeFileName, hds]
      refine ⟨st, ?_, rfl, rfl, rfl, rfl⟩
      simp [processAttachments, processAttachment, ha, hmf]
    | none =>
      have hany2 : rest.any (fun a => a.fileUri.isSome) = true := by
        simpa [List.any_cons, ha] using hany
      obtain ⟨st2, p1, p2, p3, p4, p5⟩ :=
        ih { st with logs := st.logs ++ [LogMsg.noFileUri n] } hany2
      refine ⟨st2, ?_, p2, p3, p4, p5⟩
      rw [show processAttachments env n ds st (a :: rest)
            = processAttachments env n ds { st with logs := st.logs ++ [LogMsg.noFileUri n] } rest
          from by simp [processAttachments, processAttachment, ha]]
      exact p1

theorem processInvoice_badDate (env : Env) (st : RunState) (inv : InvoiceJson) (uid : String)
    (hu : inv.uid = some uid)
    (hds : strptimeDateTime (inv.date.getD ("unknown")) = none)
    (hany : (invoiceAttachments env inv).any (fun a => a.fileUri.isSome) = true) :
    ∃ st2, processInvoice env st inv = .err st2 (.strptime (inv.date.getD ("unknown"))) ∧
      downloadCalls st2.netCalls = downloadCalls st.netCalls ∧
      st2.writes = st.writes ∧ st2.downloaded = st.downloaded := by
  rw [invoiceAttachments_eq env inv uid hu] at hany
  have hne : ¬(get_invoice_attachments env.apiUrl uid (env.attachmentsResp uid)).1.isEmpty = true := by
    intro hE
    rw [List.isEmpty_iff.mp hE] at hany
    simp at hany
  rw [processInvoice_eq env st inv uid hu, if_neg hne]
  obtain ⟨st2, p1, p2, p3, p4, p5⟩ :=
    processAttachments_err env (inv.number.getD ("unknown")) (inv.date.getD ("unknown")) hds
      (get_invoice_attachments env.apiUrl uid (env.attachmentsResp uid)).1
      { st with
        total := st.total
            + (get_invoice_attachments env.apiUrl uid (env.attachmentsResp uid)).1.length,
        netCalls := st.netCalls
            ++ [(get_invoice_attachments env.apiUrl uid (env.attachmentsResp uid)).2.2],
        logs := st.logs
            ++ [LogMsg.processingInvoice (inv.number.getD ("unknown"))
                  (inv.date.getD ("unknown"))]
            ++ (get_invoice_attachments env.apiUrl uid (env.attachmentsResp uid)).2.1
            ++ [LogMsg.foundAttachments
                  (get_invoice_attachments env.apiUrl uid (env.attachmentsResp uid)).1.length
                  (inv.number.getD ("unknown"))] } hany
  refine ⟨st2, p1, ?_, p3, p4⟩
  rw [p2]
  simp [downloadCalls_append, get_invoice_attachments_call, downloadCalls_cons_listAtt,
    downloadCalls_nil]

theorem downloadCalls_mainStart (env : Env) (startDate endDate : String) :
    downloadCalls (mainStartState env startDate endDate).netCalls = [] := by
  obtain ⟨url, hc⟩ : ∃ url,
      (get_invoices_between_dates env.apiUrl startDate endDate env.invoicesResp).2.2
        = .listInvoices url := by
    unfold get_invoices_between_dates
    split_ifs <;> exact ⟨_, rfl⟩
  simp [mainStartState, hc, downloadCalls_append, downloadCalls_cons_discovery,
    downloadCalls_cons_listInv, downloadCalls_nil]

theorem invoicesOf_eq (env : Env) (startDate endDate : String) (L : List InvoiceJson)
    (h200 : env.invoicesResp.status = 200) (hitems : env.invoicesResp.items = some L) :
    invoicesOf env startDate endDate = L := by
  simp [invoicesOf, get_invoices_between_dates, h200, hitems]

theorem pyMain_state (env : Env) (startDate endDate : String)
    (h : ((strptimeDate startDate).isSome && (strptimeDate endDate).isSome) = true) :
    (pyMain startDate endDate env).state.netCalls
        = (resState (runLoop env (mainStartState env startDate endDate)
            (invoicesOf env startDate endDate))).netCalls ∧
    (pyMain startDate endDate env).state.writes
        = (resState (runLoop env (mainStartState env startDate endDate)
            (invoicesOf env startDate endDate))).writes ∧
    (pyMain startDate endDate env).state.downloaded
        = (resState (runLoop env (mainStartState env startDate endDate)
            (invoicesOf env startDate endDate))).downloaded ∧
    (pyMain startDate endDate env).state.total
        = (resState (runLoop env (mainStartState env startDate endDate)
            (invoicesOf env startDate endDate))).total ∧
    (pyMain startDate endDate env).aborted
        = resErr (runLoop env (mainStartState env startDate endDate)
            (invoicesOf env startDate endDate)) := by
  cases hR : runLoop env (mainStartState env startDate endDate)
      (invoicesOf env startDate endDate) with
  | ok st =>
    have hm : pyMain startDate endDate env
        = { dirCreated := true,
            state := { st with
              logs := st.logs ++ [LogMsg.downloadComplete st.total st.downloaded] },
            aborted := none } := by
      unfold pyMain
      rw [if_pos h]
      rw [show (get_invoices_between_dates env.apiUrl startDate endDate env.invoicesResp).1
            = invoicesOf env startDate endDate from rfl]
      rw [hR]
    rw [hm]
    exact ⟨rfl, rfl, rfl, rfl, rfl⟩
  | err st er =>
    have hm : pyMain startDate endDate env
        = { dirCreated := true,
            state := { st with logs := st.logs ++ [LogMsg.topLevelError er] },
            aborted := some er } := by
      unfold pyMain
      rw [if_pos h]
      rw [show (get_invoices_between_dates env.apiUrl startDate endDate env.invoicesResp).1
            = invoicesOf env startDate endDate from rfl]
      rw [hR]
    rw [hm]
    exact ⟨rfl, rfl, rfl, rfl, rfl⟩

/-- C3 (amended): a failing download is caught inside the per-attachment
handler, logged at error level with the exception text, leaves the
downloaded counter untouched, and never terminates the run, and — provided
every invoice in the list has a UID field and, whenever it has an
attachment with a FileUri, a Date parsing in the timestamp format — the
loop completes normally and attempts every attachment with a present
FileUri of every invoice, whatever the download outcomes are.  Without
that proviso a later invoice with an unparseable date ends the run for
reasons unrelated to the download failure (see the counterexample). -/
theorem c3_failure_isolation :
    (∀ (env : Env) (st : RunState) (invs : List InvoiceJson),
        goodInvoicesB env invs = true →
        ∃ st2, runLoop env st invs = .ok st2 ∧
          downloadCalls st2.netCalls
              = downloadCalls st.netCalls ++ expectedAttempts env invs) ∧
    (∀ (env : Env) (n ds : String) (st : RunState) (a : AttachmentJson) (uri : String),
        a.fileUri = some uri → (strptimeDateTime ds).isSome = true →
        (env.downloadResp uri).status ≠ 200 →
        processAttachment env n ds st a
            = .ok { st with
                    netCalls := st.netCalls ++ [NetCall.download uri (fileNameOf ds n a)],
                    logs := st.logs ++ [LogMsg.downloadingFrom uri,
                      LogMsg.failedDownloadFor n
                        (PyErr.downloadFailed (env.downloadResp uri).text)] }) := by
  constructor
  · intro env st invs hg
    obtain ⟨new, h1, _, _, _, _, h6, h7⟩ := runLoop_spec env invs st
    have herr := h7 hg
    cases hR : runLoop env st invs with
    | err s2 er => rw [hR] at herr; simp [resErr] at herr
    | ok st2 =>
      refine ⟨st2, rfl, ?_⟩
      have hnew : new = expectedAttempts env invs := h6 (by rw [hR]; rfl)
      rw [hR] at h1
      rw [hnew] at h1
      exact h1
  · intro env n ds st a uri ha hds h200
    obtain ⟨t, ht⟩ := Option.isSome_iff_exists.mp hds
    have hmf : makeFileName ds n (a.originalFileName.getD ("unknown.pdf"))
        = some (output_dir ++ "/invoice_" ++ strftimeYmd t ++ "_" ++ n ++ "_"
                ++ a.originalFileName.getD ("unknown.pdf")) := by
      simp [makeFileName, ht]
    have hfn : fileNameOf ds n a
        = output_dir ++ "/invoice_" ++ strftimeYmd t ++ "_" ++ n ++ "_"
            ++ a.originalFileName.getD ("unknown.pdf") := by
      simp [fileNameOf, hmf]
    simp [processAttachment, ha, hmf, download_attachment, h200, hfn]

/-- C3 counterexample to the claim as stated: in this concrete run the
download of the first invoice's attachment fails (status 500), yet the
attachment of the second invoice — which has a FileUri — is never
attempted and the run is terminated by the top-level handler, because the
second invoice's missing Date field makes strptime raise outside the
per-attachment handler. -/
theorem c3_counterexample :
    (invoiceAttachments envFail invBadDate).any (fun a => a.fileUri.isSome) = true ∧
    (envFail.downloadResp ("uriA")).status ≠ 200 ∧
    downloadCalls (resState (runLoop envFail initState [invGood, invBadDate])).netCalls
        = [(("uriA"), ("invoice_pdfs/invoice_20240305_INV-1_a.pdf"))] ∧
    resErr (runLoop envFail initState [invGood, invBadDate])
        = some (.strptime ("unknown")) := by
  exact ⟨by decide, by decide, by decide, by decide⟩

/-- C3 witness: one processable invoice in an environment whose downloads
all fail; the loop still completes and attempts its attachment. -/
theorem c3_failure_isolation_witness :
    ∃ st2, runLoop envFail initState [invGood] = .ok st2 ∧
      downloadCalls st2.netCalls
          = downloadCalls initState.netCalls ++ expectedAttempts envFail [invGood] :=
  c3_failure_isolation.1 envFail initState [invGood] (by decide)

/-- C7: in every run the download attempts are a prefix of the per-run
attempt list that names each FileUri-bearing attachment exactly once (so
no attachment is attempted twice), the file writes are exactly the writes
of the successful attempts (a failed download writes nothing), and the
downloaded counter equals the number of successful attempts (the error is
raised before the counter increment). -/
theorem c7_downloaded_counter :
    ∀ (startDate endDate : String) (env : Env),
      ∃ attempts : List (String × String),
        downloadCalls (pyMain startDate endDate env).state.netCalls = attempts ∧
        attempts <+: expectedAttempts env (invoicesOf env startDate endDate) ∧
        (pyMain startDate endDate env).state.writes = successWrites env attempts ∧
        (pyMain startDate endDate env).state.downloaded
            = (successWrites env attempts).length := by
  intro s e env
  by_cases hd : ((strptimeDate s).isSome && (strptimeDate e).isSome) = true
  · obtain ⟨hc1, hc2, hc3, _, _⟩ := pyMain_state env s e hd
    obtain ⟨new, h1, h2, h3, h4, _, _, _⟩ :=
      runLoop_spec env (invoicesOf env s e) (mainStartState env s e)
    refine ⟨new, ?_, h2, ?_, ?_⟩
    · rw [hc1, h1, downloadCalls_mainStart]
      simp
    · rw [hc2, h3]
      simp [mainStartState]
    · rw [hc3, h4]
      simp [mainStartState]
  · have hm : pyMain s e env
        = ⟨false, ⟨0, 0, [], [], [LogMsg.datesFormatError]⟩, none⟩ := by
      unfold pyMain; rw [if_neg hd]
    refine ⟨[], by rw [hm]; rfl, List.nil_prefix, by rw [hm]; rfl, by rw [hm]; rfl⟩

/-- C8: the downloaded counter never exceeds the total-attachments
counter: the final summary state of every run satisfies the inequality,
and the invariant is preserved by the loop from any intermediate state
that satisfies it, which is what every step of the driver loop sees. -/
theorem c8_downloaded_le_total :
    (∀ (startDate endDate : String) (env : Env),
        (pyMain startDate endDate env).state.downloaded
            ≤ (pyMain startDate endDate env).state.total) ∧
    (∀ (env : Env) (st : RunState) (invs : List InvoiceJson),
        st.downloaded ≤ st.total →
        (resState (runLoop env st invs)).downloaded
            ≤ (resState (runLoop env st invs)).total) := by
  have hloop : ∀ (env : Env) (st : RunState) (invs : List InvoiceJson),
      st.downloaded ≤ st.total →
      (resState (runLoop env st invs)).downloaded
          ≤ (resState (runLoop env st invs)).total := by
    intro env st invs h
    obtain ⟨new, _, _, _, _, h5, _, _⟩ := runLoop_spec env invs st
    exact h5 h
  refine ⟨?_, hloop⟩
  intro s e env
  by_cases hd : ((strptimeDate s).isSome && (strptimeDate e).isSome) = true
  · obtain ⟨_, _, hc3, hc4, _⟩ := pyMain_state env s e hd
    rw [hc3, hc4]
    exact hloop env (mainStartState env s e) (invoicesOf env s e) (by simp [mainStartState])
  · have hm : pyMain s e env
        = ⟨false, ⟨0, 0, [], [], [LogMsg.datesFormatError]⟩, none⟩ := by
      unfold pyMain; rw [if_neg hd]
    rw [hm]

/-- C8 witness: a concrete run containing a failing download and an
aborting invoice still satisfies the invariant. -/
theorem c8_downloaded_le_total_witness :
    (resState (runLoop envFail initState [invGood, invBadDate])).downloaded
        ≤ (resState (runLoop envFail initState [invGood, invBadDate])).total :=
  c8_downloaded_le_total.2 envFail initState [invGood, invBadDate] (by decide)

/-- C9: when an invoice with a UID has a Date that is absent or does not
parse in the timestamp format and at least one of its attachments has a
FileUri, the strptime call of line 163 raises outside the per-attachment
handler: the loop result is the same whatever invoices follow (none of
them is processed), no download of the bad invoice or of any later
invoice is attempted, and on the full run the top-level handler receives
the error and the run ends. -/
theorem c9_bad_date_aborts :
    (∀ (env : Env) (st : RunState) (invs1 : List InvoiceJson) (bad : InvoiceJson)
        (invs2 : List InvoiceJson) (uid : String),
        goodInvoicesB env invs1 = true →
        bad.uid = some uid →
        strptimeDateTime (bad.date.getD ("unknown")) = none →
        (invoiceAttachments env bad).any (fun a => a.fileUri.isSome) = true →
        ∃ st2,
          runLoop env st (invs1 ++ bad :: invs2)
              = .err st2 (.strptime (bad.date.getD ("unknown"))) ∧
          runLoop env st (invs1 ++ [bad])
              = .err st2 (.strptime (bad.date.getD ("unknown"))) ∧
          downloadCalls st2.netCalls
              = downloadCalls st.netCalls ++ expectedAttempts env invs1) ∧
    (∀ (env : Env) (invs1 : List InvoiceJson) (bad : InvoiceJson) (invs2 : List InvoiceJson)
        (uid startDate endDate : String),
        goodInvoicesB env invs1 = true →
        bad.uid = some uid →
        strptimeDateTime (bad.date.getD ("unknown")) = none →
        (invoiceAttachments env bad).any (fun a => a.fileUri.isSome) = true →
        env.invoicesResp.status = 200 →
        env.invoicesResp.items = some (invs1 ++ bad :: invs2) →
        ((strptimeDate startDate).isSome && (strptimeDate endDate).isSome) = true →
        (pyMain startDate endDate env).aborted
            = some (.strptime (bad.date.getD ("unknown")))) := by
  have main : ∀ (env : Env) (st : RunState) (invs1 : List InvoiceJson) (bad : InvoiceJson)
      (invs2 : List InvoiceJson) (uid : String),
      goodInvoicesB env invs1 = true →
      bad.uid = some uid →
      strptimeDateTime (bad.date.getD ("unknown")) = none →
      (invoiceAttachments env bad).any (fun a => a.fileUri.isSome) = true →
      ∃ st2,
        runLoop env st (invs1 ++ bad :: invs2)
            = .err st2 (.strptime (bad.date.getD ("unknown"))) ∧
        runLoop env st (invs1 ++ [bad])
            = .err st2 (.strptime (bad.date.getD ("unknown"))) ∧
        downloadCalls st2.netCalls
            = downloadCalls st.netCalls ++ expectedAttempts env invs1 := by
    intro env st invs1 bad invs2 uid hg hu hds hany
    obtain ⟨new, h1, _, _, _, _, h6, h7⟩ := runLoop_spec env invs1 st
    have herr := h7 hg
    cases hR : runLoop env st invs1 with
    | err s2 er => rw [hR] at herr; simp [resErr] at herr
    | ok stG =>
      have hnew : new = expectedAttempts env invs1 := h6 (by rw [hR]; rfl)
      obtain ⟨st2, p1, p2, _, _⟩ := processInvoice_badDate env stG bad uid hu hds hany
      have hloop1 : runLoop env st (invs1 ++ bad :: invs2)
          = .err st2 (.strptime (bad.date.getD ("unknown"))) := by
        rw [runLoop_append env invs1 (bad :: invs2) st, hR]
        show runLoop env stG (bad :: invs2) = _
        simp [runLoop, p1]
      have hloop2 : runLoop env st (invs1 ++ [bad])
          = .err st2 (.strptime (bad.date.getD ("unknown"))) := by
        rw [runLoop_append env invs1 [bad] st, hR]
        show runLoop env stG [bad] = _
        simp [runLoop, p1]
      refine ⟨st2, hloop1, hloop2, ?_⟩
      rw [p2]
      rw [hR] at h1
      rw [hnew] at h1
      exact h1
  refine ⟨main, ?_⟩
  intro env invs1 bad invs2 uid s e hg hu hds hany h200 hitems hdates
  obtain ⟨st2, hl1, _, _⟩ :=
    main env (mainStartState env s e) invs1 bad invs2 uid hg hu hds hany
  obtain ⟨_, _, _, _, hc5⟩ := pyMain_state env s e hdates
  rw [hc5, invoicesOf_eq env s e (invs1 ++ bad :: invs2) h200 hitems, hl1]
  rfl

/-- C9 witness: a good invoice, then an invoice with a missing Date and a
FileUri attachment, then another invoice that is never processed. -/
theorem c9_bad_date_aborts_witness :
    ∃ st2,
      runLoop envFail initState ([invGood] ++ invBadDate :: [invGood])
          = .err st2 (.strptime (invBadDate.date.getD ("unknown"))) ∧
      runLoop envFail initState ([invGood] ++ [invBadDate])
          = .err st2 (.strptime (invBadDate.date.getD ("unknown"))) ∧
      downloadCalls st2.netCalls
          = downloadCalls initState.netCalls ++ expectedAttempts envFail [invGood] :=
  c9_bad_date_aborts.1 envFail initState [invGood] invBadDate [invGood] ("uid2")
    (by decide) (by decide) (by decide) (by decide)

end MyobInvoiceDownloader
